import Mathlib

/-!
Verification of the MIMICCXR multimodal self-supervision training objectives.

Shallow embedding of the core state and operations of the three training
objective variants (SLIP+MoCo-v2, SLIP+SimCLR, VICReg), translated from
`src/mm_pkg/methods/slip_mocov2.py`, `src/mm_pkg/methods/slip_simclr.py`
and `src/mm_pkg/methods/vicreg.py`.

Tensors are embedded as rational-valued index functions; machine floats are
idealised as exact rationals, with the floating square root embedded by an
exact rational square root (`ratSqrt`) that agrees with the real square root
on every perfect-square input used in the theorems below.
-/

/-- Keys tensor of shape (2, batch, D): `k s b d` is entry `[s, b, d]`.
Out-of-range indices are irrelevant padding, as in any function embedding. -/
def MocoKeys : Type := ℕ → ℕ → ℕ → ℚ

/-- The MoCo-v2 model state owned by `SLIP_MOCOV2` in `slip_mocov2.py`:
the registered buffers `queue` (shape (2, out_dim, queue_size), embedded as an
index function) and `queue_ptr`, the hyperparameter `queue_size` and the queue
embedding dimension `out_dim` (`mocov2_proj_output_dim`), plus the parameters
of the two momentum (ema) modules, abstracted as lists of rationals standing
for their flattened parameter vectors (their internals are external
collaborators; only whether the enqueue operation touches them matters). -/
structure MocoModel where
  queue : ℕ → ℕ → ℕ → ℚ
  queue_ptr : ℕ
  queue_size : ℕ
  out_dim : ℕ
  img_backbone_ema : List ℚ
  mocov2_projector_ema : List ℚ

/-- Embedding of `SLIP_MOCOV2._dequeue_and_enqueue` (slip_mocov2.py lines
49-64).  `batchSize = keys.shape[1]`; the Python `assert queue_size %
batch_size == 0` is the first guard; the second guard models the PyTorch
slice assignment `self.queue[:, :, ptr : ptr + batch_size] = keys`, which
raises a `RuntimeError` (shape mismatch) when the slice `[ptr, ptr+batch)`
is clipped at `queue_size`, i.e. unless `ptr + batchSize <= queue_size`.
On success the keys, permuted from (2, batch, D) to (2, D, batch) by
`keys.permute(0, 2, 1)`, overwrite columns `ptr, ..., ptr+batchSize-1`,
and the pointer advances to `(ptr + batchSize) % queue_size`.  Failure is
`none`: the Python exception propagates before any state is written. -/
def dequeueAndEnqueue (st : MocoModel) (batchSize : ℕ) (keys : MocoKeys) :
    Option MocoModel :=
  if st.queue_size % batchSize = 0 then
    if st.queue_ptr + batchSize ≤ st.queue_size then
      some { st with
              queue := fun s d c =>
                if st.queue_ptr ≤ c ∧ c < st.queue_ptr + batchSize then
                  keys s (c - st.queue_ptr) d
                else st.queue s d c,
              queue_ptr := (st.queue_ptr + batchSize) % st.queue_size }
    else none
  else none

/-- Helper: a successful enqueue only rewrites the `queue` and `queue_ptr`
fields; the sizes and the momentum parameter lists are untouched. -/
theorem dequeueAndEnqueue_frame (st : MocoModel) (b : ℕ) (keys : MocoKeys)
    (st' : MocoModel) (h : dequeueAndEnqueue st b keys = some st') :
    st'.queue_size = st.queue_size ∧ st'.out_dim = st.out_dim ∧
    st'.img_backbone_ema = st.img_backbone_ema ∧
    st'.mocov2_projector_ema = st.mocov2_projector_ema := by
  unfold dequeueAndEnqueue at h
  by_cases h1 : st.queue_size % b = 0
  · rw [if_pos h1] at h
    by_cases h2 : st.queue_ptr + b ≤ st.queue_size
    · rw [if_pos h2] at h
      cases h
      exact ⟨rfl, rfl, rfl, rfl⟩
    · rw [if_neg h2] at h
      cases h
  · rw [if_neg h1] at h
    cases h

/-- C1 (amended): when the keys batch size divides the capacity, the pointer
is in range, and additionally the write window fits below the capacity
(`ptr + batch <= C`, as always holds for pointers reached from 0 by
equal-sized enqueues), `_dequeue_and_enqueue` succeeds, writes the keys
permuted to (2, D, batch) into columns `ptr, ..., ptr+batch-1` of the queue,
leaves every other column unchanged, and advances the pointer to
`(ptr + batch) % C`, which is again in `[0, C)`. -/
theorem C1_enqueue_window_write (st : MocoModel) (b : ℕ) (keys : MocoKeys)
    (hdvd : b ∣ st.queue_size) (hptr : st.queue_ptr < st.queue_size)
    (hfit : st.queue_ptr + b ≤ st.queue_size) :
    ∃ st', dequeueAndEnqueue st b keys = some st' ∧
      (∀ s d i, i < b → st'.queue s d (st.queue_ptr + i) = keys s i d) ∧
      (∀ s d c, c < st.queue_ptr ∨ st.queue_ptr + b ≤ c →
        st'.queue s d c = st.queue s d c) ∧
      st'.queue_ptr = (st.queue_ptr + b) % st.queue_size ∧
      st'.queue_ptr < st.queue_size := by
  obtain ⟨k, hk⟩ := hdvd
  have hmod : st.queue_size % b = 0 := by
    rw [hk]
    exact Nat.mul_mod_right b k
  unfold dequeueAndEnqueue
  rw [if_pos hmod, if_pos hfit]
  refine ⟨_, rfl, ?_, ?_, ?_, ?_⟩
  · intro s d i hi
    dsimp only
    rw [if_pos ⟨Nat.le_add_right _ _, by omega⟩]
    have hsub : st.queue_ptr + i - st.queue_ptr = i := by omega
    rw [hsub]
  · intro s d c hc
    dsimp only
    rw [if_neg (by omega)]
  · rfl
  · dsimp only
    exact Nat.mod_lt _ (by omega)

/-- Witness for C1 at capacity 4, batch 2, pointer 0. -/
def enqueueWitSt : MocoModel := ⟨fun _ _ _ => 0, 0, 4, 1, [], []⟩

theorem C1_enqueue_window_write_witness :
    (2 ∣ enqueueWitSt.queue_size) ∧
    enqueueWitSt.queue_ptr < enqueueWitSt.queue_size ∧
    enqueueWitSt.queue_ptr + 2 ≤ enqueueWitSt.queue_size ∧
    (∃ st', dequeueAndEnqueue enqueueWitSt 2 (fun _ _ _ => 1) = some st' ∧
      (∀ s d i, i < 2 →
        st'.queue s d (enqueueWitSt.queue_ptr + i) = (fun _ _ _ => (1:ℚ)) s i d) ∧
      (∀ s d c, c < enqueueWitSt.queue_ptr ∨ enqueueWitSt.queue_ptr + 2 ≤ c →
        st'.queue s d c = enqueueWitSt.queue s d c) ∧
      st'.queue_ptr = (enqueueWitSt.queue_ptr + 2) % enqueueWitSt.queue_size ∧
      st'.queue_ptr < enqueueWitSt.queue_size) :=
  ⟨by decide, by decide, by decide,
    C1_enqueue_window_write enqueueWitSt 2 (fun _ _ _ => 1)
      (by decide) (by decide) (by decide)⟩

/-- A state exhibiting the failure of C1 as literally stated: capacity 4,
batch 2 (which divides 4), pointer 3 (in `[0, 4)`). -/
def cxC1St : MocoModel := ⟨fun _ _ _ => 0, 3, 4, 1, [], []⟩

/-- C1 counterexample: with capacity 4, batch size 2 dividing it, and pointer
3 in range, the enqueue operation does not write-and-advance as the claim
states; the slice assignment `queue[:, :, 3:5] = keys` raises a shape
mismatch (window clipped at the capacity), embedded as `none`. -/
theorem C1_claim_false_at_unaligned_ptr :
    (2 ∣ cxC1St.queue_size) ∧ cxC1St.queue_ptr < cxC1St.queue_size ∧
    dequeueAndEnqueue cxC1St 2 (fun _ _ _ => 1) = none :=
  ⟨by decide, by decide, rfl⟩

/-- C5: when the keys batch size does not evenly divide the queue capacity,
the enqueue operation fails (the Python `assert` raises before any write),
producing no successor state: the queue contents and pointer that the caller
retains are the unchanged pre-call ones. -/
theorem C5_enqueue_fails_on_non_divisor (st : MocoModel) (b : ℕ)
    (keys : MocoKeys) (h : ¬ b ∣ st.queue_size) :
    dequeueAndEnqueue st b keys = none ∧
    (dequeueAndEnqueue st b keys).getD st = st := by
  have hmod : ¬ st.queue_size % b = 0 := fun hz => h (Nat.dvd_of_mod_eq_zero hz)
  unfold dequeueAndEnqueue
  rw [if_neg hmod]
  exact ⟨rfl, rfl⟩

/-- Witness state for C5: capacity 8, to be hit with batch size 3. -/
def c5St : MocoModel := ⟨fun _ _ _ => 0, 0, 8, 2, [], []⟩

theorem C5_enqueue_fails_on_non_divisor_witness :
    ¬ (3 ∣ c5St.queue_size) ∧
    (dequeueAndEnqueue c5St 3 (fun _ _ _ => 1) = none ∧
     (dequeueAndEnqueue c5St 3 (fun _ _ _ => 1)).getD c5St = c5St) :=
  ⟨by decide, C5_enqueue_fails_on_non_divisor c5St 3 (fun _ _ _ => 1) (by decide)⟩

/-- Iterated enqueue: calling `_dequeue_and_enqueue` once per element of
`ks`, in order, threading the state, and failing if any call fails.  This is
exactly what repeated training steps do to the queue buffers. -/
def enqueueList (st : MocoModel) (b : ℕ) : List MocoKeys → Option MocoModel
  | [] => some st
  | k :: ks =>
    match dequeueAndEnqueue st b k with
    | some st' => enqueueList st' b ks
    | none => none

/-- Invariant lemma for `enqueueList`: starting at pointer `(j*b) % C` with
capacity `C = K*b` and at most `K - j` batches of size `b` to enqueue, every
call succeeds, batch `m` lands in columns `(j+m)*b, ..., (j+m)*b + b - 1`,
columns outside the written range keep their old values, and the pointer ends
at `((j + len)*b) % C`. -/
theorem enqueueList_spec (b K : ℕ) (hb : 0 < b) :
    ∀ (ks : List MocoKeys) (st : MocoModel) (j : ℕ),
      st.queue_size = K * b → j + ks.length ≤ K →
      st.queue_ptr = (j * b) % st.queue_size →
      ∃ st', enqueueList st b ks = some st' ∧
        st'.queue_size = st.queue_size ∧ st'.out_dim = st.out_dim ∧
        st'.queue_ptr = ((j + ks.length) * b) % st.queue_size ∧
        (∀ s d c, c < j * b ∨ (j + ks.length) * b ≤ c →
          st'.queue s d c = st.queue s d c) ∧
        (∀ m, ∀ hm : m < ks.length, ∀ s i d, i < b →
          st'.queue s d ((j + m) * b + i) = ks.get ⟨m, hm⟩ s i d) := by
  intro ks
  induction ks with
  | nil =>
    intro st j hsize hlen hptr
    exact ⟨st, rfl, rfl, rfl, by simpa using hptr, fun s d c _ => rfl,
      fun m hm => absurd hm (by simp)⟩
  | cons k tl ih =>
    intro st j hsize hlen hptr
    have hjK : j < K := by
      have := hlen
      simp only [List.length_cons] at this
      omega
    have hjb : j * b < K * b := (Nat.mul_lt_mul_right hb).mpr hjK
    have hj1b : (j + 1) * b ≤ K * b := Nat.mul_le_mul_right b (by omega)
    have hptr' : st.queue_ptr = j * b := by
      rw [hptr, hsize]
      exact Nat.mod_eq_of_lt hjb
    have hfit : st.queue_ptr + b ≤ st.queue_size := by
      rw [hptr', hsize]
      calc j * b + b = (j + 1) * b := (Nat.succ_mul j b).symm
        _ ≤ K * b := hj1b
    have hmod : st.queue_size % b = 0 := by
      rw [hsize]
      exact Nat.mul_mod_left K b
    have hstep : dequeueAndEnqueue st b k =
        some { st with
                queue := fun s d c =>
                  if st.queue_ptr ≤ c ∧ c < st.queue_ptr + b then
                    k s (c - st.queue_ptr) d
                  else st.queue s d c,
                queue_ptr := (st.queue_ptr + b) % st.queue_size } := by
      unfold dequeueAndEnqueue
      rw [if_pos hmod, if_pos hfit]
    set st1 : MocoModel :=
      { st with
          queue := fun s d c =>
            if st.queue_ptr ≤ c ∧ c < st.queue_ptr + b then
              k s (c - st.queue_ptr) d
            else st.queue s d c,
          queue_ptr := (st.queue_ptr + b) % st.queue_size } with hst1
    have h1size : st1.queue_size = K * b := hsize
    have h1len : (j + 1) + tl.length ≤ K := by
      have := hlen
      simp only [List.length_cons] at this
      omega
    have h1ptr : st1.queue_ptr = ((j + 1) * b) % st1.queue_size := by
      show (st.queue_ptr + b) % st.queue_size = ((j + 1) * b) % st.queue_size
      rw [hptr', Nat.succ_mul]
    obtain ⟨st2, hrun, hsz2, hdim2, hptr2, hold2, hnew2⟩ :=
      ih st1 (j + 1) h1size h1len h1ptr
    refine ⟨st2, ?_, ?_, ?_, ?_, ?_, ?_⟩
    · show enqueueList st b (k :: tl) = some st2
      unfold enqueueList
      rw [hstep]
      exact hrun
    · exact hsz2.trans rfl
    · exact hdim2.trans rfl
    · rw [hptr2]
      show ((j + 1 + tl.length) * b) % st.queue_size =
        ((j + (k :: tl).length) * b) % st.queue_size
      simp only [List.length_cons]
      have hjj : j + 1 + tl.length = j + (tl.length + 1) := by omega
      rw [hjj]
    · intro s d c hc
      simp only [List.length_cons] at hc
      have htl : (j + 1 + tl.length) * b = (j + (tl.length + 1)) * b := by
        have hjj : j + 1 + tl.length = j + (tl.length + 1) := by omega
        rw [hjj]
      have hmono : j * b ≤ (j + 1) * b := Nat.mul_le_mul_right b (by omega)
      have hc2 : c < (j + 1) * b ∨ (j + 1 + tl.length) * b ≤ c := by
        rcases hc with hlt | hge
        · left
          omega
        · right
          rw [htl]
          exact hge
      rw [hold2 s d c hc2]
      show (if st.queue_ptr ≤ c ∧ c < st.queue_ptr + b then
              k s (c - st.queue_ptr) d
            else st.queue s d c) = st.queue s d c
      have hnotin : ¬ (st.queue_ptr ≤ c ∧ c < st.queue_ptr + b) := by
        rw [hptr']
        have hsucc : (j + 1) * b = j * b + b := Nat.succ_mul j b
        have hone : (j + 1) * b ≤ (j + (tl.length + 1)) * b :=
          Nat.mul_le_mul_right b (by omega)
        omega
      rw [if_neg hnotin]
    · intro m hm s i d hi
      rcases m with _ | m'
      · simp only [Nat.add_zero]
        have hsucc : (j + 1) * b = j * b + b := Nat.succ_mul j b
        have hcol : j * b + i < (j + 1) * b ∨
            (j + 1 + tl.length) * b ≤ j * b + i := Or.inl (by omega)
        rw [hold2 s d _ hcol]
        show (if st.queue_ptr ≤ j * b + i ∧ j * b + i < st.queue_ptr + b then
                k s (j * b + i - st.queue_ptr) d
              else st.queue s d (j * b + i)) =
          (k :: tl).get ⟨0, hm⟩ s i d
        rw [hptr']
        rw [if_pos (by omega)]
        have hsub : j * b + i - j * b = i := by omega
        rw [hsub]
        rfl
      · have hm' : m' < tl.length := by
          simp only [List.length_cons] at hm
          omega
        have harith : j + (m' + 1) = j + 1 + m' := by omega
        rw [harith, hnew2 m' hm' s i d hi]
        rfl

/-- C4: starting from pointer 0 with capacity `C = K * b`, enqueueing `K`
batches of equal size `b` succeeds throughout, returns the pointer to 0, and
leaves row `i` of batch `m` (for each stream `s`) exactly in column
`m * b + i` of the queue: since the columns `m * b + i` for `m < K`,
`i < b` enumerate `0, ..., C-1` without repetition, every enqueued row
appears exactly once in `Q`. -/
theorem C4_full_cycle (b K : ℕ) (hb : 0 < b) (st : MocoModel)
    (ks : List MocoKeys) (hsize : st.queue_size = K * b)
    (hlen : ks.length = K) (hptr : st.queue_ptr = 0) :
    ∃ st', enqueueList st b ks = some st' ∧ st'.queue_ptr = 0 ∧
      st'.queue_size = st.queue_size ∧
      (∀ m, ∀ hm : m < ks.length, ∀ s i d, i < b →
        st'.queue s d (m * b + i) = ks.get ⟨m, hm⟩ s i d) := by
  obtain ⟨st', hrun, hsz, hdim, hptrf, hold, hnew⟩ :=
    enqueueList_spec b K hb ks st 0 hsize (by omega) (by simp [hptr])
  refine ⟨st', hrun, ?_, hsz, ?_⟩
  · rw [hptrf, hlen, hsize]
    simp
  · intro m hm s i d hi
    have hcell := hnew m hm s i d hi
    simpa using hcell

/-- Witness state for C4: capacity 8, D = 2, pointer 0. -/
def c4St : MocoModel := ⟨fun _ _ _ => 0, 0, 8, 2, [], []⟩

/-- First witness batch for C4: four copies of the row (1, 0). -/
def keysA : MocoKeys := fun _ _ d => if d = 0 then 1 else 0

/-- Second witness batch for C4: four copies of the row (0, 1). -/
def keysB : MocoKeys := fun _ _ d => if d = 0 then 0 else 1

theorem C4_full_cycle_witness :
    0 < 4 ∧ c4St.queue_size = 2 * 4 ∧ [keysA, keysB].length = 2 ∧
    c4St.queue_ptr = 0 ∧
    (∃ st', enqueueList c4St 4 [keysA, keysB] = some st' ∧
      st'.queue_ptr = 0 ∧ st'.queue_size = c4St.queue_size ∧
      (∀ m, ∀ hm : m < [keysA, keysB].length, ∀ s i d, i < 4 →
        st'.queue s d (m * 4 + i) = [keysA, keysB].get ⟨m, hm⟩ s i d)) :=
  ⟨by decide, by decide, rfl, rfl,
    C4_full_cycle 4 2 (by decide) c4St [keysA, keysB] (by decide) rfl rfl⟩

/-- Modelled from the spec: the repository's `_batch_shuffle_ddp` and
`_batch_unshuffle_ddp` live in `mm_pkg/model_utils/misc_utils.py`, which is
not among the provided source files; the model below follows spec section
4.3 word by word.  `flatIdx` is the position of local row `i` of replica `r`
inside the rank-ordered gathered global batch of `W` replicas with `n` rows
each (replica `r` owns the block of rows `r*n, ..., r*n + n - 1`). -/
def flatIdx (W n : ℕ) (r : Fin W) (i : Fin n) : Fin (W * n) :=
  ⟨r.val * n + i.val, by
    have h1 : r.val + 1 ≤ W := r.isLt
    calc r.val * n + i.val < r.val * n + n := by
          have := i.isLt
          omega
      _ = (r.val + 1) * n := (Nat.succ_mul r.val n).symm
      _ ≤ W * n := Nat.mul_le_mul_right n h1⟩

/-- Modelled from the spec: the rank-ordered, non-differentiable gather of
spec section 4.1, concatenating every replica's rows into one global batch
indexed by `flatIdx`. -/
def gatherDDP {α : Type} (W n : ℕ) (x : Fin W → Fin n → α) :
    Fin (W * n) → α :=
  fun g =>
    x ⟨g.val / n, by
        rcases Nat.eq_zero_or_pos n with hn | hn
        · subst hn
          have hlt := g.isLt
          omega
        · exact (Nat.div_lt_iff_lt_mul hn).mpr g.isLt⟩
      ⟨g.val % n, by
        rcases Nat.eq_zero_or_pos n with hn | hn
        · subst hn
          have hlt := g.isLt
          omega
        · exact Nat.mod_lt _ hn⟩

/-- Modelled from the spec (section 4.3, `_batch_shuffle_ddp`): gather all
replicas' batches into one global batch, reorder it by a single global
random permutation `p` (generated on one replica and broadcast, hence a
single arbitrary permutation here), return to each replica the slice of
rows at its rank, together with the inverse-permutation record
(`idx_unshuffle`, the argsort of the shuffle index). -/
def shuffleDDP {α : Type} (W n : ℕ) (p : Equiv.Perm (Fin (W * n)))
    (x : Fin W → Fin n → α) :
    (Fin W → Fin n → α) × (Fin (W * n) → Fin (W * n)) :=
  (fun r i => gatherDDP W n x (p (flatIdx W n r i)), fun g => p.symm g)

/-- Modelled from the spec (section 4.3, `_batch_unshuffle_ddp`): gather the
shuffled batches back into a global batch, reorder by the inverse
permutation record, and slice back each replica's rank's rows. -/
def unshuffleDDP {α : Type} (W n : ℕ) (y : Fin W → Fin n → α)
    (idxUnshuffle : Fin (W * n) → Fin (W * n)) : Fin W → Fin n → α :=
  fun r i => gatherDDP W n y (idxUnshuffle (flatIdx W n r i))

/-- Gathering the per-replica batches and reading the global position of
local row `i` of replica `r` recovers exactly that row. -/
theorem gatherDDP_flatIdx {α : Type} (W n : ℕ) (x : Fin W → Fin n → α)
    (r : Fin W) (i : Fin n) : gatherDDP W n x (flatIdx W n r i) = x r i := by
  have hn : 0 < n := i.pos
  have h1 : (r.val * n + i.val) / n = r.val := by
    rw [Nat.mul_comm r.val n, Nat.mul_add_div hn, Nat.div_eq_of_lt i.isLt,
      Nat.add_zero]
  have h2 : (r.val * n + i.val) % n = i.val := by
    rw [Nat.mul_comm r.val n, Nat.mul_add_mod, Nat.mod_eq_of_lt i.isLt]
  simp only [gatherDDP, flatIdx, h1, h2, Fin.eta]

/-- Gathering the per-replica slices of a global batch reconstitutes the
global batch. -/
theorem gatherDDP_slices {α : Type} (W n : ℕ) (gs : Fin (W * n) → α)
    (g : Fin (W * n)) :
    gatherDDP W n (fun r i => gs (flatIdx W n r i)) g = gs g := by
  show gs (flatIdx W n _ _) = gs g
  congr 1
  apply Fin.ext
  show (g.val / n) * n + g.val % n = g.val
  rw [Nat.mul_comm]
  exact Nat.div_add_mod g.val n

/-- C2: for every world size `W >= 1` (any `W` with a replica `r`), every
per-replica batch size `n`, every batch `x`, and every broadcast global
permutation, unshuffling the shuffled batch with the unmodified inverse
record produced by the shuffle restores `x` exactly, element-wise on every
replica. -/
theorem C2_unshuffle_shuffle_id {α : Type} (W n : ℕ)
    (p : Equiv.Perm (Fin (W * n))) (x : Fin W → Fin n → α)
    (r : Fin W) (i : Fin n) :
    unshuffleDDP W n (shuffleDDP W n p x).1 (shuffleDDP W n p x).2 r i =
      x r i := by
  show gatherDDP W n (fun r' i' => gatherDDP W n x (p (flatIdx W n r' i')))
      (p.symm (flatIdx W n r i)) = x r i
  refine Eq.trans
    (gatherDDP_slices W n (fun g => gatherDDP W n x (p g))
      (p.symm (flatIdx W n r i))) ?_
  show gatherDDP W n x (p (p.symm (flatIdx W n r i))) = x r i
  rw [Equiv.apply_symm_apply]
  exact gatherDDP_flatIdx W n x r i

/-- Floor integer square root, computed by a structural fold so that
concrete instances reduce by evaluation. -/
def natSqrtFloor (n : ℕ) : ℕ :=
  (List.range (n + 1)).foldl (fun a k => if k * k ≤ n then k else a) 0

/-- Rational square root: the embedding of the floating-point square root
inside `torch.nn.functional.normalize`.  It is the exact real square root on
every rational whose numerator and denominator are perfect squares, which
covers every concrete input it is applied to below. -/
def ratSqrt (x : ℚ) : ℚ :=
  (natSqrtFloor x.num.toNat : ℚ) / (natSqrtFloor x.den : ℚ)

/-- The default `eps = 1e-12` of `torch.nn.functional.normalize`, which
divides by `max(norm, eps)`. -/
def epsNorm : ℚ := 1 / 10 ^ 12

theorem ratSqrt_25 : ratSqrt 25 = 5 := by
  unfold ratSqrt
  rw [show (25:ℚ).num.toNat = 25 from rfl, show (25:ℚ).den = 1 from rfl,
    show natSqrtFloor 25 = 5 by decide, show natSqrtFloor 1 = 1 by decide]
  norm_num

theorem ratSqrt_one : ratSqrt 1 = 1 := by
  unfold ratSqrt
  rw [show (1:ℚ).num.toNat = 1 from rfl, show (1:ℚ).den = 1 from rfl,
    show natSqrtFloor 1 = 1 by decide]
  norm_num

/-- Embedding of `nn.functional.normalize(t, dim=0)` on the (2, D, C) queue
tensor (slip_mocov2.py line 45): each length-2 fiber `t[:, d, c]` along the
first (stream) axis is divided by the maximum of its L2 norm and eps. -/
def normalizeDim0 (t : ℕ → ℕ → ℕ → ℚ) : ℕ → ℕ → ℕ → ℚ :=
  fun s d c => t s d c / max (ratSqrt (t 0 d c ^ 2 + t 1 d c ^ 2)) epsNorm

/-- Embedding of the queue construction in `_build_model` (slip_mocov2.py
lines 43-46): `register_buffer("queue", torch.randn(2, D, C))`, then
`queue = nn.functional.normalize(self.queue, dim=0)`, then a zero pointer;
`randn` stands for the random draw. -/
def buildModelQueue (randn : ℕ → ℕ → ℕ → ℚ) (D C : ℕ) : MocoModel :=
  ⟨normalizeDim0 randn, 0, C, D, [], []⟩

/-- Squared L2 norm of the length-D column `Q[s, :, c]`, i.e. of one stored
negative-sample embedding of the queue. -/
def colSqNorm (q : ℕ → ℕ → ℕ → ℚ) (D s c : ℕ) : ℚ :=
  ∑ d in Finset.range D, q s d c ^ 2

/-- A concrete random draw exhibiting C8: D = 2, C = 1, with
`randn[:, 0, 0] = (3, 4)` and `randn[:, 1, 0] = (0, 1)`. -/
def randnCx : ℕ → ℕ → ℕ → ℚ :=
  fun s d _ =>
    if s = 0 then (if d = 0 then 3 else 0) else (if d = 0 then 4 else 1)

theorem c8_q000 : (buildModelQueue randnCx 2 1).queue 0 0 0 = 3 / 5 := by
  show randnCx 0 0 0 /
      max (ratSqrt (randnCx 0 0 0 ^ 2 + randnCx 1 0 0 ^ 2)) epsNorm = 3 / 5
  rw [show randnCx 0 0 0 = 3 from rfl, show randnCx 1 0 0 = 4 from rfl,
    show ((3:ℚ) ^ 2 + 4 ^ 2) = 25 by norm_num, ratSqrt_25,
    max_eq_left (by norm_num [epsNorm])]

theorem c8_q100 : (buildModelQueue randnCx 2 1).queue 1 0 0 = 4 / 5 := by
  show randnCx 1 0 0 /
      max (ratSqrt (randnCx 0 0 0 ^ 2 + randnCx 1 0 0 ^ 2)) epsNorm = 4 / 5
  rw [show randnCx 0 0 0 = 3 from rfl, show randnCx 1 0 0 = 4 from rfl,
    show ((3:ℚ) ^ 2 + 4 ^ 2) = 25 by norm_num, ratSqrt_25,
    max_eq_left (by norm_num [epsNorm])]

theorem c8_q010 : (buildModelQueue randnCx 2 1).queue 0 1 0 = 0 := by
  show randnCx 0 1 0 /
      max (ratSqrt (randnCx 0 1 0 ^ 2 + randnCx 1 1 0 ^ 2)) epsNorm = 0
  rw [show randnCx 0 1 0 = 0 from rfl, zero_div]

/-- C8 (code bug): at construction the queue is normalized along `dim=0`,
the stream axis of length 2, not along the embedding dimension.  Under the
concrete draw `randnCx`, the stored negative-sample embedding `Q[0, :, 0]`
comes out as `(3/5, 0)` with squared L2 norm 9/25, not 1, refuting the
claimed unit-column invariant; what the code actually establishes is that
each cross-stream fiber `(Q[0,d,c], Q[1,d,c])` is a unit vector (third
conjunct), and the pointer starts at 0 (fourth conjunct). -/
theorem C8_init_columns_not_unit :
    colSqNorm (buildModelQueue randnCx 2 1).queue 2 0 0 = 9 / 25 ∧
    (9 / 25 : ℚ) ≠ 1 ∧
    (buildModelQueue randnCx 2 1).queue 0 0 0 ^ 2 +
      (buildModelQueue randnCx 2 1).queue 1 0 0 ^ 2 = 1 ∧
    (buildModelQueue randnCx 2 1).queue_ptr = 0 := by
  refine ⟨?_, by norm_num, ?_, rfl⟩
  · unfold colSqNorm
    rw [Finset.sum_range_succ, Finset.sum_range_succ, Finset.sum_range_zero,
      c8_q000, c8_q010]
    norm_num
  · rw [c8_q000, c8_q100]
    norm_num

/-- Row-wise squared L2 norm of an (N, D) matrix, over its D columns. -/
def rowSqNorm (M : ℕ → ℕ → ℚ) (D i : ℕ) : ℚ :=
  ∑ d in Finset.range D, M i d ^ 2

/-- Embedding of `nn.functional.normalize(M, dim=1)` on an (N, D) matrix:
each row is divided by the maximum of its L2 norm and eps. -/
def normalizeDim1 (M : ℕ → ℕ → ℚ) (D : ℕ) : ℕ → ℕ → ℚ :=
  fun i d => M i d / max (ratSqrt (rowSqNorm M D i)) epsNorm

/-- Embedding of slip_mocov2.py line 89, the pair of MoCo-v2 queries
subsequently handed to the two `mocov2_loss` calls, as a function of the
projector outputs `q1, q2` of the two augmented views: the source line reads
`q1, q2 = nn.functional.normalize(q1, dim=1), nn.functional.normalize(q1,
dim=1)`, so BOTH components are normalized from `q1` and the second view's
projector output `q2` is never used. -/
def mocoQueries (D : ℕ) (q1 q2 : ℕ → ℕ → ℚ) : (ℕ → ℕ → ℚ) × (ℕ → ℕ → ℚ) :=
  (normalizeDim1 q1 D, normalizeDim1 q1 D)

/-- Concrete projector output of the first view for C3: the single row
(1, 0). -/
def p1Cx : ℕ → ℕ → ℚ := fun _ d => if d = 0 then 1 else 0

/-- Concrete projector output of the second view for C3: the single row
(0, 1). -/
def p2Cx : ℕ → ℕ → ℚ := fun _ d => if d = 0 then 0 else 1

theorem rowSqNorm_p2Cx : rowSqNorm p2Cx 2 0 = 1 := by
  unfold rowSqNorm
  rw [Finset.sum_range_succ, Finset.sum_range_succ, Finset.sum_range_zero]
  rw [show p2Cx 0 0 = 0 from rfl, show p2Cx 0 1 = 1 from rfl]
  norm_num

/-- C3 (code bug): in the SLIP+MoCo-v2 `shared_forward`, the value passed as
`q2` to `mocov2_loss` is the normalization of `q1`, not of the second view's
projector output.  With projector outputs `p1Cx = (1,0)` and `p2Cx = (0,1)`,
the code's `q2` has entry 0 at coordinate 1, while the row-wise
unit-normalization of the second view's output (the claimed contract) has
entry 1 there: the two differ, so the claim fails on the code.  The first
conjunct shows the code's `q2` is literally the normalization of `q1`. -/
theorem C3_q2_not_from_second_view :
    (mocoQueries 2 p1Cx p2Cx).2 = normalizeDim1 p1Cx 2 ∧
    (mocoQueries 2 p1Cx p2Cx).2 0 1 = 0 ∧
    normalizeDim1 p2Cx 2 0 1 = 1 ∧
    (mocoQueries 2 p1Cx p2Cx).2 0 1 ≠ normalizeDim1 p2Cx 2 0 1 := by
  have h2 : (mocoQueries 2 p1Cx p2Cx).2 0 1 = 0 := by
    show p1Cx 0 1 / max (ratSqrt (rowSqNorm p1Cx 2 0)) epsNorm = 0
    rw [show p1Cx 0 1 = 0 from rfl, zero_div]
  have h3 : normalizeDim1 p2Cx 2 0 1 = 1 := by
    show p2Cx 0 1 / max (ratSqrt (rowSqNorm p2Cx 2 0)) epsNorm = 1
    rw [show p2Cx 0 1 = 1 from rfl, rowSqNorm_p2Cx, ratSqrt_one,
      max_eq_left (by norm_num [epsNorm])]
    norm_num
  refine ⟨rfl, h2, h3, ?_⟩
  rw [h2, h3]
  norm_num

/-- Embedding of the mapping returned by SLIP+MoCo-v2's `shared_forward`
(slip_mocov2.py lines 112-114), as a function of the computed component
losses `c_loss` and `ssl_loss` (the backbone, projector and loss-function
computations that produce them are external collaborators) and of the
hyperparameter `ssl_scale`:
`return loss: c_loss + ssl_scale * ssl_loss, clip_loss: c_loss,
ssl_loss: ssl_loss`. -/
def slipMocov2SharedForwardOut (c_loss ssl_loss ssl_scale : ℚ) :
    List (String × ℚ) :=
  [("loss", c_loss + ssl_scale * ssl_loss),
   ("clip_loss", c_loss), ("ssl_loss", ssl_loss)]

/-- Embedding of the mapping returned by SLIP+SimCLR's `shared_forward`
(slip_simclr.py lines 59-61), of the same shape. -/
def slipSimclrSharedForwardOut (c_loss ssl_loss ssl_scale : ℚ) :
    List (String × ℚ) :=
  [("loss", c_loss + ssl_scale * ssl_loss),
   ("clip_loss", c_loss), ("ssl_loss", ssl_loss)]

/-- Embedding of the mapping returned by VICReg's `shared_forward`
(vicreg.py line 42): the total loss is the vicreg loss alone. -/
def vicregSharedForwardOut (ssl_loss : ℚ) : List (String × ℚ) :=
  [("loss", ssl_loss)]

/-- C6: for every variant and all computed component losses, the mapping
returned by `shared_forward` contains the required "loss" key; each SLIP
variant additionally exposes its two named sub-loss terms "clip_loss" and
"ssl_loss" of its total `clip + scale * ssl` loss; VICReg's total loss is
the vicreg loss alone, with no further orchestrator-level terms. -/
theorem C6_shared_forward_required_keys (c m s v sc : ℚ) :
    ((slipMocov2SharedForwardOut c m sc).lookup "loss").isSome = true ∧
    ((slipMocov2SharedForwardOut c m sc).lookup "clip_loss").isSome = true ∧
    ((slipMocov2SharedForwardOut c m sc).lookup "ssl_loss").isSome = true ∧
    ((slipSimclrSharedForwardOut c s sc).lookup "loss").isSome = true ∧
    ((slipSimclrSharedForwardOut c s sc).lookup "clip_loss").isSome = true ∧
    ((slipSimclrSharedForwardOut c s sc).lookup "ssl_loss").isSome = true ∧
    ((vicregSharedForwardOut v).lookup "loss").isSome = true :=
  ⟨rfl, rfl, rfl, rfl, rfl, rfl, rfl⟩

/-- C7: in both SLIP variants, the "loss" entry of the returned mapping is
exactly `clip_loss + ssl_scale * ssl_loss`, where "clip_loss" and
"ssl_loss" are the sub-loss entries of the same mapping. -/
theorem C7_loss_is_clip_plus_scaled_ssl (c m s sc : ℚ) :
    (slipMocov2SharedForwardOut c m sc).lookup "loss" = some (c + sc * m) ∧
    (slipMocov2SharedForwardOut c m sc).lookup "clip_loss" = some c ∧
    (slipMocov2SharedForwardOut c m sc).lookup "ssl_loss" = some m ∧
    (slipSimclrSharedForwardOut c s sc).lookup "loss" = some (c + sc * s) ∧
    (slipSimclrSharedForwardOut c s sc).lookup "clip_loss" = some c ∧
    (slipSimclrSharedForwardOut c s sc).lookup "ssl_loss" = some s :=
  ⟨rfl, rfl, rfl, rfl, rfl, rfl⟩

/-- The queue snapshot taken in slip_mocov2.py line 104,
`queue = self.queue.clone().detach()`: a copy of the queue buffer taken
before the enqueue; `clone().detach()` is a pure no-gradient copy, which at
the value level is the queue's current contents. -/
def snapshotQueue (st : MocoModel) : ℕ → ℕ → ℕ → ℚ := st.queue

/-- Embedding of slip_mocov2.py lines 103-110 at the level of the queue
state: the step snapshots the queue, computes the ssl loss as a function
`lossOf` of that snapshot (the two `mocov2_loss` calls read `queue[1]` and
`queue[0]` of the snapshot; the loss function's internals live in
`mm_pkg/losses/mocov2_loss.py`, outside the provided sources, so it is kept
as an arbitrary function of the snapshot), and only afterwards enqueues the
step's gathered keys. -/
def mocoStep (st : MocoModel) (b : ℕ) (keys : MocoKeys)
    (lossOf : (ℕ → ℕ → ℕ → ℚ) → ℚ) : ℚ × Option MocoModel :=
  (lossOf (snapshotQueue st), dequeueAndEnqueue st b keys)

/-- C9: in the MoCo-v2 part of a training step, the loss is computed from
the snapshot of the queue taken before the enqueue, so it equals the value
of the loss function on the pre-enqueue queue (first conjunct) and is
unaffected by whatever keys the same step enqueues (second conjunct); the
enqueue itself mutates only the queue buffer and the pointer, leaving every
other model buffer unchanged (remaining conjuncts). -/
theorem C9_loss_from_pre_enqueue_snapshot (st : MocoModel) (b : ℕ)
    (keys keys' : MocoKeys) (lossOf : (ℕ → ℕ → ℕ → ℚ) → ℚ)
    (h : (dequeueAndEnqueue st b keys).isSome = true) :
    (mocoStep st b keys lossOf).1 = lossOf st.queue ∧
    (mocoStep st b keys' lossOf).1 = (mocoStep st b keys lossOf).1 ∧
    ((dequeueAndEnqueue st b keys).getD st).img_backbone_ema =
      st.img_backbone_ema ∧
    ((dequeueAndEnqueue st b keys).getD st).mocov2_projector_ema =
      st.mocov2_projector_ema ∧
    ((dequeueAndEnqueue st b keys).getD st).queue_size = st.queue_size ∧
    ((dequeueAndEnqueue st b keys).getD st).out_dim = st.out_dim := by
  refine ⟨rfl, rfl, ?_⟩
  cases hE : dequeueAndEnqueue st b keys with
  | none =>
    rw [hE] at h
    simp at h
  | some st2 =>
    obtain ⟨hsz, hod, hib, hmp⟩ := dequeueAndEnqueue_frame st b keys st2 hE
    exact ⟨hib, hmp, hsz, hod⟩

/-- Witness state for C9: capacity 1, batch 1, with nonempty stand-in
parameter lists for the two momentum modules. -/
def c9St : MocoModel := ⟨fun _ _ _ => 0, 0, 1, 1, [5], [7]⟩

theorem C9_loss_from_pre_enqueue_snapshot_witness :
    (dequeueAndEnqueue c9St 1 (fun _ _ _ => 9)).isSome = true ∧
    ((mocoStep c9St 1 (fun _ _ _ => 9) (fun q => q 0 0 0)).1 =
        (fun q : ℕ → ℕ → ℕ → ℚ => q 0 0 0) c9St.queue ∧
      (mocoStep c9St 1 (fun _ _ _ => 3) (fun q => q 0 0 0)).1 =
        (mocoStep c9St 1 (fun _ _ _ => 9) (fun q => q 0 0 0)).1 ∧
      ((dequeueAndEnqueue c9St 1 (fun _ _ _ => 9)).getD c9St).img_backbone_ema =
        c9St.img_backbone_ema ∧
      ((dequeueAndEnqueue c9St 1 (fun _ _ _ => 9)).getD
          c9St).mocov2_projector_ema = c9St.mocov2_projector_ema ∧
      ((dequeueAndEnqueue c9St 1 (fun _ _ _ => 9)).getD c9St).queue_size =
        c9St.queue_size ∧
      ((dequeueAndEnqueue c9St 1 (fun _ _ _ => 9)).getD c9St).out_dim =
        c9St.out_dim) :=
  ⟨rfl, C9_loss_from_pre_enqueue_snapshot c9St 1 (fun _ _ _ => 9)
    (fun _ _ _ => 3) (fun q => q 0 0 0) rfl⟩

/-- The parameter-bearing modules built by `SLIP_MOCOV2._build_model`
(slip_mocov2.py lines 17-41), each abstracted as its flattened parameter
list; only which modules appear in `learnable_params` matters here. -/
structure SlipMocov2Modules where
  img_backbone : List ℚ
  text_backbone : List ℚ
  img_projector : List ℚ
  text_projector : List ℚ
  mocov2_projector : List ℚ

/-- Embedding of the `learnable_params` property of `SLIP_MOCOV2`
(slip_mocov2.py lines 134-139), as a state-passing query that returns the
tagged parameter groups together with the resulting model state, so that
purity is an explicit conclusion rather than an assumption. -/
def slipMocov2LearnableParams (m : SlipMocov2Modules) :
    List (String × List ℚ) × SlipMocov2Modules :=
  ([("backbone", m.img_backbone), ("projector", m.mocov2_projector)], m)

/-- The parameter-bearing modules built by `SLIP_SIMCLR._build_model`
(slip_simclr.py lines 17-38). -/
structure SlipSimclrModules where
  img_backbone : List ℚ
  text_backbone : List ℚ
  img_projector : List ℚ
  text_projector : List ℚ
  simclr_projector : List ℚ

/-- Embedding of the `learnable_params` property of `SLIP_SIMCLR`
(slip_simclr.py lines 81-89). -/
def slipSimclrLearnableParams (m : SlipSimclrModules) :
    List (String × List ℚ) × SlipSimclrModules :=
  ([("backbone", m.img_backbone), ("backbone", m.text_backbone),
    ("projector", m.img_projector), ("projector", m.text_projector),
    ("projector", m.simclr_projector)], m)

/-- C10: SLIP+MoCo-v2's `learnable_params` returns exactly the two tagged
groups image backbone and MoCo-v2 projector and (whenever the modules'
parameter sets are distinct) contains neither the text backbone nor either
CLIP projector, while SLIP+SimCLR's returns exactly five groups including
the text backbone and all three projectors; both queries return the model
state unchanged (purity). -/
theorem C10_learnable_params_groups (m : SlipMocov2Modules)
    (m2 : SlipSimclrModules)
    (hdist : m.text_backbone ≠ m.img_backbone ∧
      m.text_backbone ≠ m.mocov2_projector ∧
      m.img_projector ≠ m.img_backbone ∧
      m.img_projector ≠ m.mocov2_projector ∧
      m.text_projector ≠ m.img_backbone ∧
      m.text_projector ≠ m.mocov2_projector) :
    (slipMocov2LearnableParams m).1 =
      [("backbone", m.img_backbone), ("projector", m.mocov2_projector)] ∧
    (slipMocov2LearnableParams m).1.length = 2 ∧
    (slipMocov2LearnableParams m).2 = m ∧
    m.text_backbone ∉ (slipMocov2LearnableParams m).1.map Prod.snd ∧
    m.img_projector ∉ (slipMocov2LearnableParams m).1.map Prod.snd ∧
    m.text_projector ∉ (slipMocov2LearnableParams m).1.map Prod.snd ∧
    (slipSimclrLearnableParams m2).1 =
      [("backbone", m2.img_backbone), ("backbone", m2.text_backbone),
       ("projector", m2.img_projector), ("projector", m2.text_projector),
       ("projector", m2.simclr_projector)] ∧
    (slipSimclrLearnableParams m2).1.length = 5 ∧
    m2.text_backbone ∈ (slipSimclrLearnableParams m2).1.map Prod.snd ∧
    m2.img_projector ∈ (slipSimclrLearnableParams m2).1.map Prod.snd ∧
    m2.text_projector ∈ (slipSimclrLearnableParams m2).1.map Prod.snd ∧
    m2.simclr_projector ∈ (slipSimclrLearnableParams m2).1.map Prod.snd ∧
    (slipSimclrLearnableParams m2).2 = m2 := by
  obtain ⟨h1, h2, h3, h4, h5, h6⟩ := hdist
  refine ⟨rfl, rfl, rfl, ?_, ?_, ?_, rfl, rfl, ?_, ?_, ?_, ?_, rfl⟩
  · simp only [slipMocov2LearnableParams, List.map_cons, List.map_nil,
      List.mem_cons, List.not_mem_nil, or_false]
    push_neg
    exact ⟨h1, h2⟩
  · simp only [slipMocov2LearnableParams, List.map_cons, List.map_nil,
      List.mem_cons, List.not_mem_nil, or_false]
    push_neg
    exact ⟨h3, h4⟩
  · simp only [slipMocov2LearnableParams, List.map_cons, List.map_nil,
      List.mem_cons, List.not_mem_nil, or_false]
    push_neg
    exact ⟨h5, h6⟩
  · simp [slipSimclrLearnableParams]
  · simp [slipSimclrLearnableParams]
  · simp [slipSimclrLearnableParams]
  · simp [slipSimclrLearnableParams]

/-- Witness modules for C10: pairwise-distinct stand-in parameter lists. -/
def c10Moco : SlipMocov2Modules := ⟨[0], [1], [2], [3], [4]⟩

/-- Witness modules for the SimCLR half of C10. -/
def c10Simclr : SlipSimclrModules := ⟨[0], [1], [2], [3], [4]⟩

theorem C10_learnable_params_groups_witness :
    (c10Moco.text_backbone ≠ c10Moco.img_backbone ∧
      c10Moco.text_backbone ≠ c10Moco.mocov2_projector ∧
      c10Moco.img_projector ≠ c10Moco.img_backbone ∧
      c10Moco.img_projector ≠ c10Moco.mocov2_projector ∧
      c10Moco.text_projector ≠ c10Moco.img_backbone ∧
      c10Moco.text_projector ≠ c10Moco.mocov2_projector) ∧
    ((slipMocov2LearnableParams c10Moco).1 =
      [("backbone", c10Moco.img_backbone),
       ("projector", c10Moco.mocov2_projector)] ∧
    (slipMocov2LearnableParams c10Moco).1.length = 2 ∧
    (slipMocov2LearnableParams c10Moco).2 = c10Moco ∧
    c10Moco.text_backbone ∉
      (slipMocov2LearnableParams c10Moco).1.map Prod.snd ∧
    c10Moco.img_projector ∉
      (slipMocov2LearnableParams c10Moco).1.map Prod.snd ∧
    c10Moco.text_projector ∉
      (slipMocov2LearnableParams c10Moco).1.map Prod.snd ∧
    (slipSimclrLearnableParams c10Simclr).1 =
      [("backbone", c10Simclr.img_backbone),
       ("backbone", c10Simclr.text_backbone),
       ("projector", c10Simclr.img_projector),
       ("projector", c10Simclr.text_projector),
       ("projector", c10Simclr.simclr_projector)] ∧
    (slipSimclrLearnableParams c10Simclr).1.length = 5 ∧
    c10Simclr.text_backbone ∈
      (slipSimclrLearnableParams c10Simclr).1.map Prod.snd ∧
    c10Simclr.img_projector ∈
      (slipSimclrLearnableParams c10Simclr).1.map Prod.snd ∧
    c10Simclr.text_projector ∈
      (slipSimclrLearnableParams c10Simclr).1.map Prod.snd ∧
    c10Simclr.simclr_projector ∈
      (slipSimclrLearnableParams c10Simclr).1.map Prod.snd ∧
    (slipSimclrLearnableParams c10Simclr).2 = c10Simclr) :=
  ⟨by refine ⟨?_, ?_, ?_, ?_, ?_, ?_⟩ <;> decide,
    C10_learnable_params_groups c10Moco c10Simclr
      (by refine ⟨?_, ?_, ?_, ?_, ?_, ?_⟩ <;> decide)⟩
